import Mathlib

/-!
Verification of `tensorflow/lite/micro/tools/generate_cc_arrays.py`.

The tool converts `.tflite` / `.bmp` / `.wav` inputs into C array source
files.  The script is embedded shallowly: Python strings become `List Char`,
bytes become `Fin 256`, raised exceptions become explicit error values, and
the filesystem / stdout effects become an explicit `RunState` threaded
through the functions.  Python library calls (`str.split`, `str.replace`,
`os.path.join`, `os.path.dirname`, `os.makedirs`, `bytes.hex`, `hex`,
`int.from_bytes`, `dict.fromkeys`) are modelled by executable definitions
that follow CPython's documented behaviour.
-/

namespace GenCC

/-- Python strings are modelled as lists of characters. -/
abbrev PyStr := List Char

/-- A Lean string literal, as the character list modelling the Python string. -/
def pstr (s : String) : PyStr := s.data

/-- One byte of file data: an integer in `[0, 256)`. -/
abbrev PyByte := Fin 256

/-- Python `s.endswith(suffix)`. -/
def pyEndsWith (s suf : PyStr) : Bool := List.isSuffixOf suf s

/-- Worker for `pySplit`; the fuel is an upper bound on the remaining text
length, so it never runs out on the arguments `pySplit` passes. -/
def pySplitAux (sep : PyStr) : Nat → PyStr → PyStr → List PyStr
  | 0, acc, rest => [acc.reverse ++ rest]
  | _ + 1, acc, [] => [acc.reverse]
  | fuel + 1, acc, c :: rest =>
    if List.isPrefixOf sep (c :: rest) then
      acc.reverse :: pySplitAux sep fuel [] (List.drop sep.length (c :: rest))
    else
      pySplitAux sep fuel (c :: acc) rest

/-- Python `s.split(sep)` for a nonempty separator: split at the
non-overlapping occurrences of `sep`, scanning left to right.  The result is
always a nonempty list. -/
def pySplit (sep s : PyStr) : List PyStr := pySplitAux sep s.length [] s

/-- Worker for `pyReplace`; fuel as in `pySplitAux`. -/
def pyReplaceAux (old new : PyStr) : Nat → PyStr → PyStr
  | 0, rest => rest
  | _ + 1, [] => []
  | fuel + 1, c :: rest =>
    if List.isPrefixOf old (c :: rest) then
      new ++ pyReplaceAux old new fuel (List.drop old.length (c :: rest))
    else
      c :: pyReplaceAux old new fuel rest

/-- Python `s.replace(old, new)` for a nonempty `old`: replaces every
non-overlapping occurrence, scanning left to right. -/
def pyReplace (old new s : PyStr) : PyStr := pyReplaceAux old new s.length s

/-- Python `lst[0]` on the nonempty lists produced by `split`. -/
def pyFirst (l : List PyStr) : PyStr := l.headD []

/-- Python `lst[-1]` on the nonempty lists produced by `split`. -/
def pyLastElem (l : List PyStr) : PyStr := l.getLastD []

/-- `os.path.join(a, b)` (POSIX rules, two arguments): an absolute second
path discards the first; otherwise a separator is inserted unless the first
part is empty or already ends with one. -/
def pyJoin (a b : PyStr) : PyStr :=
  if b.head? = some '/' then b
  else if a = [] ∨ a.getLast? = some '/' then a ++ b
  else a ++ '/' :: b

/-- The prefix of `s` up to and including its last `/` (CPython's
`p[:i]` with `i = p.rfind(sep) + 1`); empty when `s` has no separator. -/
def dirnameHead (s : PyStr) : PyStr := (s.reverse.dropWhile (fun c => c != '/')).reverse

/-- `os.path.dirname(p)` (POSIX): the part of `p` up to its last `/`, with
trailing separators stripped unless that part consists only of separators;
the empty string when `p` has no separator. -/
def pyDirname (s : PyStr) : PyStr :=
  if dirnameHead s ≠ [] ∧ (dirnameHead s).any (fun c => c != '/') = true then
    ((dirnameHead s).reverse.dropWhile (fun c => c == '/')).reverse
  else dirnameHead s

/-- Worker for `pyDedup`, carrying the set of keys already seen. -/
def pyDedupAux (seen : List PyStr) : List PyStr → List PyStr
  | [] => []
  | x :: xs => if x ∈ seen then pyDedupAux seen xs else x :: pyDedupAux (x :: seen) xs

/-- `list(dict.fromkeys(l))`: deduplicate, keeping first occurrences in
order. -/
def pyDedup (l : List PyStr) : List PyStr := pyDedupAux [] l

/-- Lowercase hexadecimal digit character for `d < 16`. -/
def hexDigit (d : Nat) : Char := if d < 10 then Char.ofNat (48 + d) else Char.ofNat (87 + d)

/-- Python `byte.hex()` for a single byte: exactly two lowercase hexadecimal
digits. -/
def byteHex (b : PyByte) : PyStr := [hexDigit (b.val / 16), hexDigit (b.val % 16)]

/-- Base-10 digits of `n` (empty for `0`); fuel-based, `fuel ≥ n` suffices. -/
def decDigitsAux : Nat → Nat → PyStr
  | 0, _ => []
  | fuel + 1, n => if n = 0 then [] else decDigitsAux fuel (n / 10) ++ [Char.ofNat (48 + n % 10)]

/-- Python `str(n)` for a natural number. -/
def natStr (n : Nat) : PyStr := if n = 0 then ['0'] else decDigitsAux n n

/-- Python `str(i)` for an integer. -/
def intStr (i : Int) : PyStr := if i < 0 then '-' :: natStr i.natAbs else natStr i.natAbs

/-- Base-16 digits of `n` (empty for `0`); fuel-based, `fuel ≥ n` suffices. -/
def hexDigitsAux : Nat → Nat → PyStr
  | 0, _ => []
  | fuel + 1, n => if n = 0 then [] else hexDigitsAux fuel (n / 16) ++ [hexDigit (n % 16)]

/-- Python `hex(n)` for a non-negative integer: `0x` then the digits with no
zero padding, `0x0` for zero. -/
def pyHex (n : Nat) : PyStr := '0' :: 'x' :: (if n = 0 then ['0'] else hexDigitsAux n n)

/-- Little-endian unsigned value of a byte string (first byte least
significant). -/
def leUnsigned : List PyByte → Nat
  | [] => 0
  | b :: bs => b.val + 256 * leUnsigned bs

/-- Python `int.from_bytes(bs, byteorder='little', signed=True)`:
two's-complement over the full width of the byte string. -/
def leSigned (bs : List PyByte) : Int :=
  if 2 * leUnsigned bs < 256 ^ bs.length then (leUnsigned bs : Int)
  else (leUnsigned bs : Int) - 256 ^ bs.length

/-- A waveform container as exposed by Python's `wave` module: the frame
count declared by `getnframes()`, and the successive frames handed out by
`readframes(1)` (each frame is `nchannels * sampwidth` raw bytes). -/
structure WavFile where
  nframes : Nat
  frames : List (List PyByte)
  deriving DecidableEq

/-- The input data visible to one run.  `rawBytes` is the byte content read
by `open(path, 'rb')`, `bmpBytes` the decoded pixel buffer produced by the
PIL collaborator's `tobytes()`, and `wavData` the container handed back by
`wave.open`.  The decoding collaborators are opaque at this boundary. -/
structure Env where
  rawBytes : PyStr → List PyByte
  bmpBytes : PyStr → List PyByte
  wavData : PyStr → WavFile

/-- The Python exceptions the tool can raise, by raise site. -/
inductive GenError where
  /-- `ValueError('input file must be .tflite, .bmp or .wav')`, raised by
  `generate_array` and by `main`'s directory loop. -/
  | unsupportedFormat
  /-- `ValueError('generated file must be end with .cc or .h')`, raised by
  `generate_file`. -/
  | invalidOutputExtension
  /-- `AssertionError` from `assert len(args.inputs) == 1`. -/
  | inputCountMismatch
  /-- `FileNotFoundError` raised by `os.makedirs('')` when the output path
  has no directory component. -/
  | fileNotFound
  /-- `TypeError` from unpacking the `None` that `get_array_name` returns on
  an unrecognized extension. -/
  | typeError
  deriving DecidableEq

/-- Observable effects of a run: directories created, files written (in
write order; Python's `open(..., 'w')` overwrites, so an entry is one write
event), lines printed to stdout, and input files opened for reading. -/
structure RunState where
  dirs : List PyStr
  files : List (PyStr × PyStr)
  stdoutLines : List PyStr
  reads : List PyStr
  deriving DecidableEq

/-- The state at process start. -/
def RunState.init : RunState := ⟨[], [], [], []⟩

/-- `os.makedirs(d, exist_ok=True)` over a filesystem in which every
non-empty path is creatable: CPython's `os.makedirs('')` raises
`FileNotFoundError` (its final `mkdir('')` fails and `isdir('')` is false,
so `exist_ok` does not swallow the error); any other path is recorded as
created.  CPython also creates the missing ancestors of `d`; they are not
tracked separately because nothing in the tool observes them. -/
def makedirs (d : PyStr) (s : RunState) : Option GenError × RunState :=
  if d = [] then (some .fileNotFound, s)
  else (none, { s with dirs := d :: s.dirs })

/-- `'.cc'` -/
def ccExt : PyStr := pstr ".cc"

/-- `'.h'` -/
def hExt : PyStr := pstr ".h"

/-- `'.tflite'` -/
def tfliteExt : PyStr := pstr ".tflite"

/-- `'.bmp'` -/
def bmpExt : PyStr := pstr ".bmp"

/-- `'.wav'` -/
def wavExt : PyStr := pstr ".wav"

/-- Text written into a definition (`.cc`) artifact: the include line for
`out_fname.split('genfiles/')[-1].replace('.cc', '.h')`, a blank line, the
`alignas(16)` array statement, and the size constant. -/
def ccFileText (out_fname array_name array_type array_contents : PyStr) (size : Nat) : PyStr :=
  pstr "#include \"" ++ pyReplace ccExt hExt (pyLastElem (pySplit (pstr "genfiles/") out_fname))
    ++ pstr "\"\n\n"
    ++ pstr "alignas(16) const " ++ array_type ++ pstr " " ++ array_name
    ++ pstr "[] = \x7b" ++ array_contents ++ pstr "\x7d;\n"
    ++ pstr "const unsigned int " ++ array_name ++ pstr "_size = " ++ natStr size ++ pstr ";"

/-- Text written into a declaration (`.h`) artifact. -/
def hFileText (array_name array_type : PyStr) : PyStr :=
  pstr "extern const " ++ array_type ++ pstr " " ++ array_name ++ pstr "[];\n"
    ++ pstr "extern const unsigned int " ++ array_name ++ pstr "_size;"

/-- `generate_file(out_fname, array_name, array_type, array_contents, size)`:
creates the output path's parent directory, then writes a `.cc` or `.h`
file, or raises `ValueError` for any other extension. -/
def generate_file (out_fname array_name array_type array_contents : PyStr) (size : Nat)
    (s : RunState) : Option GenError × RunState :=
  match makedirs (pyDirname out_fname) s with
  | (some e, s') => (some e, s')
  | (none, s') =>
    if pyEndsWith out_fname ccExt then
      (none, { s' with files := s'.files ++
        [(out_fname, ccFileText out_fname array_name array_type array_contents size)] })
    else if pyEndsWith out_fname hExt then
      (none, { s' with files := s'.files ++ [(out_fname, hFileText array_name array_type)] })
    else
      (some .invalidOutputExtension, s')

/-- The `.tflite` branch's while-loop: one byte read per iteration, each
rendered as `'0x' + byte.hex() + ','`; the size counter ends at the number
of bytes. -/
def tfliteArray : List PyByte → Nat × PyStr
  | [] => (0, [])
  | b :: bs =>
    let rest := tfliteArray bs
    (rest.1 + 1, ('0' :: 'x' :: byteHex b ++ [',']) ++ rest.2)

/-- The `.bmp` branch: `hex(byte) + ','` accumulated over the decoded pixel
bytes, count `len(image_bytes)`. -/
def bmpArray (image_bytes : List PyByte) : Nat × PyStr :=
  (image_bytes.length, (image_bytes.map (fun b => pyHex b.val ++ [','])).flatten)

/-- The `.wav` branch's loop: `range(nframes)` iterations, each reading the
next frame (`b''`, i.e. `[]`, once the data is exhausted) and rendering
`str(int.from_bytes(frame, 'little', signed=True)) + ','`. -/
def wavLoop : Nat → List (List PyByte) → PyStr
  | 0, _ => []
  | n + 1, fs => (intStr (leSigned (fs.headD [])) ++ [',']) ++ wavLoop n fs.tail

/-- The `.wav` branch of `generate_array`: count from `getnframes()`. -/
def wavArray (w : WavFile) : Nat × PyStr := (w.nframes, wavLoop w.nframes w.frames)

/-- Pure value of `generate_array(input_fname)`; `none` models the
`ValueError` raised on an unrecognized extension. -/
def readInput (input_fname : PyStr) (env : Env) : Option (Nat × PyStr) :=
  if pyEndsWith input_fname tfliteExt then some (tfliteArray (env.rawBytes input_fname))
  else if pyEndsWith input_fname bmpExt then some (bmpArray (env.bmpBytes input_fname))
  else if pyEndsWith input_fname wavExt then some (wavArray (env.wavData input_fname))
  else none

/-- `generate_array(input_fname)` with its effects: the recognized branches
open the input file; the unrecognized branch raises before touching the
filesystem. -/
def generate_array (input_fname : PyStr) (env : Env) (s : RunState) :
    Except GenError (Nat × PyStr) × RunState :=
  match readInput input_fname env with
  | some r => (.ok r, { s with reads := s.reads ++ [input_fname] })
  | none => (.error .unsupportedFormat, s)

/-- `get_array_name(input_fname)`.  The Python function has no `else`
branch: on an unrecognized extension it falls off the end and returns
`None`, modelled as `none`; it raises nothing. -/
def get_array_name (input_fname : PyStr) : Option (PyStr × PyStr) :=
  let base_array_name :=
    pstr "g_" ++ pyLastElem (pySplit (pstr "/") (pyFirst (pySplit (pstr ".") input_fname)))
  if pyEndsWith input_fname tfliteExt then
    some (base_array_name ++ pstr "_model_data", pstr "unsigned char")
  else if pyEndsWith input_fname bmpExt then
    some (base_array_name ++ pstr "_image_data", pstr "unsigned char")
  else if pyEndsWith input_fname wavExt then
    some (base_array_name ++ pstr "_audio_data", pstr "short")
  else none

/-- The directory-mode base output path
`os.path.join(args.output, input_file.split('.')[0])` plus the kind-specific
suffix; `none` models the `ValueError` raised for an unrecognized input. -/
def outputBase (output input_file : PyStr) : Option PyStr :=
  let joined := pyJoin output (pyFirst (pySplit (pstr ".") input_file))
  if pyEndsWith input_file tfliteExt then some (joined ++ pstr "_model_data")
  else if pyEndsWith input_file bmpExt then some (joined ++ pstr "_image_data")
  else if pyEndsWith input_file wavExt then some (joined ++ pstr "_audio_data")
  else none

/-- `main`'s directory-mode `for` loop over the already deduplicated inputs;
it stops at the first raised exception.  Note the definition-file path is
printed before the input is read or either artifact is written, exactly as
in the source. -/
def mainLoop (output : PyStr) (env : Env) : List PyStr → RunState → Option GenError × RunState
  | [], s => (none, s)
  | input_file :: rest, s =>
    match outputBase output input_file with
    | none => (some .unsupportedFormat, s)
    | some base =>
      let output_cc_fname := base ++ ccExt
      let s1 := { s with stdoutLines := s.stdoutLines ++ [output_cc_fname] }
      let output_hdr_fname := base ++ hExt
      match generate_array input_file env s1 with
      | (.error e, s2) => (some e, s2)
      | (.ok (size, cc_array), s2) =>
        match get_array_name input_file with
        | none => (some .typeError, s2)
        | some (generated_array_name, array_type) =>
          match generate_file output_cc_fname generated_array_name array_type cc_array size s2 with
          | (some e, s3) => (some e, s3)
          | (none, s3) =>
            match generate_file output_hdr_fname generated_array_name array_type cc_array size s3 with
            | (some e, s4) => (some e, s4)
            | (none, s4) => mainLoop output env rest s4

/-- `main()` after argument parsing: single-file mode when the output target
ends in `.cc` or `.h` (requiring exactly one input), directory mode
otherwise. -/
def main (output : PyStr) (inputs : List PyStr) (env : Env) (s : RunState) :
    Option GenError × RunState :=
  if pyEndsWith output ccExt || pyEndsWith output hExt then
    if inputs.length = 1 then
      match generate_array (inputs.headD []) env s with
      | (.error e, s') => (some e, s')
      | (.ok (size, cc_array), s') =>
        match get_array_name (inputs.headD []) with
        | none => (some .typeError, s')
        | some (generated_array_name, array_type) =>
          generate_file output generated_array_name array_type cc_array size s'
    else (some .inputCountMismatch, s)
  else
    mainLoop output env (pyDedup inputs) s

/-- An input path has one of the three recognized extensions. -/
def recognizedInput (i : PyStr) : Bool :=
  pyEndsWith i tfliteExt || pyEndsWith i bmpExt || pyEndsWith i wavExt

/-- The kind-specific suffix appended to identifiers and output base paths. -/
def kindSuffix (i : PyStr) : PyStr :=
  if pyEndsWith i tfliteExt then pstr "_model_data"
  else if pyEndsWith i bmpExt then pstr "_image_data"
  else if pyEndsWith i wavExt then pstr "_audio_data"
  else []

/-- The count/contents pair `generate_array` produces for a recognized
input. -/
def arrOf (i : PyStr) (env : Env) : Nat × PyStr := (readInput i env).getD (0, [])

/-- The identifier `get_array_name` produces for a recognized input. -/
def nameOf (i : PyStr) : PyStr := ((get_array_name i).getD ([], [])).1

/-- The element type `get_array_name` produces for a recognized input. -/
def typeOf (i : PyStr) : PyStr := ((get_array_name i).getD ([], [])).2

/-- Directory-mode path of the definition artifact for input `i`. -/
def ccPathOf (output i : PyStr) : PyStr := (outputBase output i).getD [] ++ ccExt

/-- Directory-mode path of the declaration artifact for input `i`. -/
def hdrPathOf (output i : PyStr) : PyStr := (outputBase output i).getD [] ++ hExt

/-- The definition artifact (path and text) written for input `i` in
directory mode. -/
def defArtifact (output i : PyStr) (env : Env) : PyStr × PyStr :=
  (ccPathOf output i,
    ccFileText (ccPathOf output i) (nameOf i) (typeOf i) (arrOf i env).2 (arrOf i env).1)

/-- The declaration artifact (path and text) written for input `i` in
directory mode. -/
def declArtifact (output i : PyStr) : PyStr × PyStr :=
  (hdrPathOf output i, hFileText (nameOf i) (typeOf i))

/-- A lowercase hexadecimal digit as produced by Python's `hex`/`bytes.hex`. -/
def isLowerHexDigitChar (c : Char) : Bool := c.isDigit || ('a' ≤ c && c ≤ 'f')

/-- A concrete input environment: a two-byte `.tflite` blob `[0x01, 0xab]`,
a two-byte decoded bitmap `[0, 255]`, and a three-frame 16-bit mono
waveform with little-endian samples `[-1, 0, 32767]`. -/
def envDemo : Env where
  rawBytes := fun _ => [0x01, 0xab]
  bmpBytes := fun _ => [0x00, 0xff]
  wavData := fun _ => ⟨3, [[0xff, 0xff], [0x00, 0x00], [0xff, 0x7f]]⟩

/-! ### Basic lemmas about the string model -/

theorem ends_exists {s a : PyStr} (h : pyEndsWith s a = true) : ∃ t, s = t ++ a := by
  obtain ⟨t, ht⟩ := List.isSuffixOf_iff_suffix.mp h
  exact ⟨t, ht.symm⟩

theorem getLast?_of_ends {s a : PyStr} (h : pyEndsWith s a = true) (ha : a ≠ []) :
    s.getLast? = a.getLast? := by
  obtain ⟨t, rfl⟩ := ends_exists h
  exact List.getLast?_append_of_ne_nil t ha

theorem ends_false_of_getLast {s a b : PyStr} (hsa : pyEndsWith s a = true) (ha : a ≠ [])
    (hb : b ≠ []) (hab : a.getLast? ≠ b.getLast?) : pyEndsWith s b = false := by
  cases hsb : pyEndsWith s b with
  | false => rfl
  | true => exact absurd ((getLast?_of_ends hsa ha).symm.trans (getLast?_of_ends hsb hb)) hab

theorem pyEndsWith_append (x a : PyStr) : pyEndsWith (x ++ a) a = true :=
  List.isSuffixOf_iff_suffix.mpr ⟨x, rfl⟩

theorem bmp_not_tflite {s : PyStr} (h : pyEndsWith s bmpExt = true) :
    pyEndsWith s tfliteExt = false :=
  ends_false_of_getLast h (by decide) (by decide) (by decide)

theorem wav_not_tflite {s : PyStr} (h : pyEndsWith s wavExt = true) :
    pyEndsWith s tfliteExt = false :=
  ends_false_of_getLast h (by decide) (by decide) (by decide)

theorem wav_not_bmp {s : PyStr} (h : pyEndsWith s wavExt = true) :
    pyEndsWith s bmpExt = false :=
  ends_false_of_getLast h (by decide) (by decide) (by decide)

theorem h_append_not_cc (x : PyStr) : pyEndsWith (x ++ hExt) ccExt = false :=
  ends_false_of_getLast (pyEndsWith_append x hExt) (by decide) (by decide) (by decide)

theorem slash_mem_pyJoin {a : PyStr} (b : PyStr) (ha : a ≠ []) : '/' ∈ pyJoin a b := by
  unfold pyJoin
  by_cases hb : b.head? = some '/'
  · rw [if_pos hb]
    cases b with
    | nil => simp at hb
    | cons c t =>
      simp only [List.head?, Option.some.injEq] at hb
      simp [hb]
  · rw [if_neg hb]
    by_cases h2 : a = [] ∨ a.getLast? = some '/'
    · rw [if_pos h2]
      rcases h2 with h1 | h1
      · exact absurd h1 ha
      · obtain ⟨ys, rfl⟩ := List.getLast?_eq_some_iff.mp h1
        exact List.mem_append_left b (List.mem_append_right ys (by simp))
    · rw [if_neg h2]
      exact List.mem_append_right a (by simp)

theorem pyDirname_ne_nil {s : PyStr} (h : '/' ∈ s) : pyDirname s ≠ [] := by
  have hhead : dirnameHead s ≠ [] := by
    unfold dirnameHead
    simp only [ne_eq, List.reverse_eq_nil_iff]
    intro hnil
    have hall := List.dropWhile_eq_nil_iff.mp hnil '/' (List.mem_reverse.mpr h)
    simp at hall
  unfold pyDirname
  split
  · next hcond =>
    obtain ⟨-, hany⟩ := hcond
    simp only [ne_eq, List.reverse_eq_nil_iff]
    intro hnil
    obtain ⟨c, hc, hcne⟩ := List.any_eq_true.mp hany
    have hceq := List.dropWhile_eq_nil_iff.mp hnil c (List.mem_reverse.mpr hc)
    simp at hcne hceq
    exact hcne hceq
  · next => exact hhead

/-! ### Reduction lemmas for recognized inputs -/

theorem outputBase_eq_some {i : PyStr} (output : PyStr) (hi : recognizedInput i = true) :
    outputBase output i
      = some (pyJoin output (pyFirst (pySplit (pstr ".") i)) ++ kindSuffix i) := by
  cases h1 : pyEndsWith i tfliteExt <;> cases h2 : pyEndsWith i bmpExt <;>
    cases h3 : pyEndsWith i wavExt <;> simp_all [recognizedInput, outputBase, kindSuffix]

theorem readInput_eq_some {i : PyStr} (env : Env) (hi : recognizedInput i = true) :
    readInput i env = some (arrOf i env) := by
  cases h1 : pyEndsWith i tfliteExt <;> cases h2 : pyEndsWith i bmpExt <;>
    cases h3 : pyEndsWith i wavExt <;> simp_all [recognizedInput, readInput, arrOf]

theorem get_array_name_eq_some {i : PyStr} (hi : recognizedInput i = true) :
    get_array_name i = some (nameOf i, typeOf i) := by
  cases h1 : pyEndsWith i tfliteExt <;> cases h2 : pyEndsWith i bmpExt <;>
    cases h3 : pyEndsWith i wavExt <;> simp_all [recognizedInput, get_array_name, nameOf, typeOf]

theorem slash_mem_ccPathOf {output i : PyStr} (ho : output ≠ []) (hi : recognizedInput i = true) :
    '/' ∈ ccPathOf output i := by
  rw [ccPathOf, outputBase_eq_some output hi, Option.getD_some]
  exact List.mem_append_left _ (List.mem_append_left _ (slash_mem_pyJoin _ ho))

theorem slash_mem_hdrPathOf {output i : PyStr} (ho : output ≠ []) (hi : recognizedInput i = true) :
    '/' ∈ hdrPathOf output i := by
  rw [hdrPathOf, outputBase_eq_some output hi, Option.getD_some]
  exact List.mem_append_left _ (List.mem_append_left _ (slash_mem_pyJoin _ ho))

/-! ### The directory-mode loop -/

theorem mainLoop_cons {output i : PyStr} (env : Env) (rest : List PyStr) (s : RunState)
    (hi : recognizedInput i = true) (ho : output ≠ []) :
    mainLoop output env (i :: rest) s =
      mainLoop output env rest
        { dirs := pyDirname (hdrPathOf output i) :: pyDirname (ccPathOf output i) :: s.dirs,
          files := s.files ++ [defArtifact output i env, declArtifact output i],
          stdoutLines := s.stdoutLines ++ [ccPathOf output i],
          reads := s.reads ++ [i] } := by
  have hccdir : pyDirname (ccPathOf output i) ≠ [] :=
    pyDirname_ne_nil (slash_mem_ccPathOf ho hi)
  have hhdir : pyDirname (hdrPathOf output i) ≠ [] :=
    pyDirname_ne_nil (slash_mem_hdrPathOf ho hi)
  have hcp : ccPathOf output i
      = (pyJoin output (pyFirst (pySplit (pstr ".") i)) ++ kindSuffix i) ++ ccExt := by
    rw [ccPathOf, outputBase_eq_some output hi, Option.getD_some]
  have hhp : hdrPathOf output i
      = (pyJoin output (pyFirst (pySplit (pstr ".") i)) ++ kindSuffix i) ++ hExt := by
    rw [hdrPathOf, outputBase_eq_some output hi, Option.getD_some]
  have hccend : pyEndsWith (ccPathOf output i) ccExt = true := by
    rw [hcp]; exact pyEndsWith_append _ _
  have hh_not_cc : pyEndsWith (hdrPathOf output i) ccExt = false := by
    rw [hhp]; exact h_append_not_cc _
  have hhend : pyEndsWith (hdrPathOf output i) hExt = true := by
    rw [hhp]; exact pyEndsWith_append _ _
  rw [mainLoop, outputBase_eq_some output hi, ← hcp.symm]
  simp only [generate_array, readInput_eq_some env hi, get_array_name_eq_some hi,
    generate_file, makedirs, ← hcp, ← hhp, hccdir, hhdir, hccend, hh_not_cc, hhend,
    if_neg, if_pos, defArtifact, declArtifact]
  simp [arrOf, defArtifact, declArtifact, ← hcp, ← hhp]

theorem mainLoop_spec (output : PyStr) (env : Env) (l : List PyStr) (ho : output ≠ []) :
    ∀ s : RunState, (∀ i ∈ l, recognizedInput i = true) →
      (mainLoop output env l s).1 = none ∧
      (mainLoop output env l s).2.stdoutLines = s.stdoutLines ++ l.map (ccPathOf output) ∧
      (mainLoop output env l s).2.files
        = s.files ++ (l.map fun i => [defArtifact output i env, declArtifact output i]).flatten := by
  induction l with
  | nil => intro s _; simp [mainLoop]
  | cons i rest ih =>
    intro s hrec
    rw [mainLoop_cons env rest s (hrec i (by simp)) ho]
    obtain ⟨e1, e2, e3⟩ := ih _ (fun j hj => hrec j (by simp [hj]))
    exact ⟨e1, by simp [e2], by simp [e3]⟩

/-! ### The per-kind read loops -/

theorem tfliteArray_eq (bs : List PyByte) :
    tfliteArray bs = (bs.length, (bs.map (fun b => '0' :: 'x' :: byteHex b ++ [','])).flatten) := by
  induction bs with
  | nil => rfl
  | cons b t ih => simp [tfliteArray, ih]

theorem wavLoop_eq (frames : List (List PyByte)) :
    wavLoop frames.length frames
      = (frames.map (fun f => intStr (leSigned f) ++ [','])).flatten := by
  induction frames with
  | nil => rfl
  | cons f fs ih => simpa [wavLoop] using ih

set_option maxRecDepth 4000 in
theorem byteHex_all_hex : ∀ b : PyByte, (byteHex b).all isLowerHexDigitChar = true := by decide

/-! ### Deduplication -/

theorem mem_of_mem_pyDedupAux {i : PyStr} :
    ∀ (seen l : List PyStr), i ∈ pyDedupAux seen l → i ∈ l := by
  intro seen l
  induction l generalizing seen with
  | nil => simp [pyDedupAux]
  | cons x xs ih =>
    intro h
    rw [pyDedupAux] at h
    split at h
    · exact List.mem_cons_of_mem x (ih _ h)
    · rcases List.mem_cons.mp h with h1 | h1
      · simp [h1]
      · exact List.mem_cons_of_mem x (ih _ h1)

theorem mem_of_mem_pyDedup {i : PyStr} {l : List PyStr} (h : i ∈ pyDedup l) : i ∈ l :=
  mem_of_mem_pyDedupAux [] l h

theorem pyDedup_pair {a b : PyStr} (hab : a ≠ b) : pyDedup [a, b, a] = [a, b] := by
  simp [pyDedup, pyDedupAux, hab, Ne.symm hab]

/-! ### Claims about the format reader -/

/-- C1: for every binary-blob (`.tflite`) input file, `generate_array`
returns a count equal to the number of bytes in the file and a content blob
that is the concatenation, in file order, of one token per byte, each token
being `0x` followed by exactly two (lowercase) hexadecimal digits followed
by a comma. -/
theorem tflite_blob_count_and_tokens (input_fname : PyStr) (env : Env) (s : RunState)
    (h : pyEndsWith input_fname tfliteExt = true) :
    (generate_array input_fname env s).1 =
      Except.ok ((env.rawBytes input_fname).length,
        ((env.rawBytes input_fname).map (fun b => '0' :: 'x' :: byteHex b ++ [','])).flatten) ∧
    ∀ b : PyByte, (byteHex b).length = 2 ∧ (byteHex b).all isLowerHexDigitChar = true := by
  refine ⟨by simp [generate_array, readInput, h, tfliteArray_eq], fun b => ⟨rfl, byteHex_all_hex b⟩⟩

/-- C1 witness: the two-byte blob `[0x01, 0xab]` renders as `0x01,0xab,`
with count 2. -/
theorem tflite_blob_count_and_tokens_witness :
    (generate_array (pstr "model.tflite") envDemo RunState.init).1
      = Except.ok (2, pstr "0x01,0xab,") ∧ (byteHex 0xab).length = 2 := by
  have h := tflite_blob_count_and_tokens (pstr "model.tflite") envDemo RunState.init (by decide)
  exact ⟨h.1.trans (congrArg Except.ok (by decide)), (h.2 0xab).1⟩

/-- C2: for every waveform (`.wav`) input whose frame data matches the
declared frame count, `generate_array` returns the declared frame count,
and the blob is one token per frame: the decimal rendering of the
little-endian signed interpretation of that frame's raw bytes, followed by
a comma. -/
theorem wav_frame_count_and_tokens (input_fname : PyStr) (env : Env) (s : RunState)
    (h : pyEndsWith input_fname wavExt = true)
    (hw : (env.wavData input_fname).frames.length = (env.wavData input_fname).nframes) :
    (generate_array input_fname env s).1 =
      Except.ok ((env.wavData input_fname).nframes,
        ((env.wavData input_fname).frames.map (fun f => intStr (leSigned f) ++ [','])).flatten) := by
  simp [generate_array, readInput, h, wav_not_tflite h, wav_not_bmp h, wavArray, ← hw, wavLoop_eq]

/-- C2 witness: three 16-bit little-endian frames decode to `-1,0,32767,`
with count 3. -/
theorem wav_frame_count_and_tokens_witness :
    (generate_array (pstr "sound.wav") envDemo RunState.init).1
      = Except.ok (3, pstr "-1,0,32767,") := by
  have h := wav_frame_count_and_tokens (pstr "sound.wav") envDemo RunState.init
    (by decide) (by decide)
  exact h.trans (congrArg Except.ok (by decide))

/-! ### Claims about directory mode -/

/-- C3 counterexample: the claim predicts that the output base path uses
the input's final path segment (`a`), i.e. that the definition path for
input `d/a.tflite` under output directory `out` would be
`out/a_model_data.cc`.  The code joins `input_file.split('.')[0]` — which
keeps the directory component `d/` — so the printed definition path is
`out/d/a_model_data.cc` instead. -/
theorem dir_mode_keeps_input_directories :
    (main (pstr "out") [pstr "d/a.tflite"] envDemo RunState.init).2.stdoutLines
      = [pstr "out/d/a_model_data.cc"] ∧
    (pstr "out/d/a_model_data.cc" : PyStr) ≠ pstr "out/a_model_data.cc" :=
  ⟨by decide, by decide⟩

/-- C3 (amended): in directory mode, for every unique input path, the
output base path is the join of the output directory with the input path's
portion before its first `.` — retaining any directory components of the
input, not just its final segment — plus the kind-specific suffix
(`_model_data`, `_image_data`, or `_audio_data`), and each generated
definition-file path is printed to standard output, one per line, in
processing order. -/
theorem dir_mode_paths_and_stdout (output : PyStr) (inputs : List PyStr) (env : Env)
    (h1 : pyEndsWith output ccExt = false) (h2 : pyEndsWith output hExt = false)
    (h3 : output ≠ []) (h4 : ∀ i ∈ inputs, recognizedInput i = true) :
    (main output inputs env RunState.init).1 = none ∧
    (main output inputs env RunState.init).2.stdoutLines
      = (pyDedup inputs).map (ccPathOf output) ∧
    (∀ i ∈ pyDedup inputs, outputBase output i
      = some (pyJoin output (pyFirst (pySplit (pstr ".") i)) ++ kindSuffix i)) ∧
    (main output inputs env RunState.init).2.files
      = ((pyDedup inputs).map fun i => [defArtifact output i env, declArtifact output i]).flatten := by
  have hmain : main output inputs env RunState.init
      = mainLoop output env (pyDedup inputs) RunState.init := by
    simp [main, h1, h2]
  obtain ⟨e1, e2, e3⟩ := mainLoop_spec output env (pyDedup inputs) h3 RunState.init
    (fun i hi => h4 i (mem_of_mem_pyDedup hi))
  rw [hmain]
  exact ⟨e1, by simpa [RunState.init] using e2,
    fun i hi => outputBase_eq_some output (h4 i (mem_of_mem_pyDedup hi)),
    by simpa [RunState.init] using e3⟩

/-- C3 witness at output `out` and single input `a.tflite`. -/
theorem dir_mode_paths_and_stdout_witness :
    (main (pstr "out") [pstr "a.tflite"] envDemo RunState.init).1 = none ∧
    (main (pstr "out") [pstr "a.tflite"] envDemo RunState.init).2.stdoutLines
      = (pyDedup [pstr "a.tflite"]).map (ccPathOf (pstr "out")) ∧
    (∀ i ∈ pyDedup [pstr "a.tflite"], outputBase (pstr "out") i
      = some (pyJoin (pstr "out") (pyFirst (pySplit (pstr ".") i)) ++ kindSuffix i)) ∧
    (main (pstr "out") [pstr "a.tflite"] envDemo RunState.init).2.files
      = ((pyDedup [pstr "a.tflite"]).map
          fun i => [defArtifact (pstr "out") i envDemo, declArtifact (pstr "out") i]).flatten :=
  dir_mode_paths_and_stdout (pstr "out") [pstr "a.tflite"] envDemo
    (by decide) (by decide) (by decide) (by decide)

/-! ### Claims about the artifact writer -/

/-- C4 counterexample: for the output path `genfiles/v.cc/m.cc` (which ends
in `.cc`), the claim predicts the include path `v.cc/m.h` (only the final
`.cc` suffix swapped to `.h`), but `replace('.cc', '.h')` rewrites every
occurrence, producing the include line `#include "v.h/m.h"`. -/
theorem generate_file_include_replaces_all :
    (generate_file (pstr "genfiles/v.cc/m.cc") (pstr "g_m_model_data") (pstr "unsigned char")
        (pstr "0x01,") 1 RunState.init).2.files
      = [(pstr "genfiles/v.cc/m.cc",
          pstr "#include \"v.h/m.h\"\n\nalignas(16) const unsigned char g_m_model_data[] = \x7b0x01,\x7d;\nconst unsigned int g_m_model_data_size = 1;")] ∧
    pyReplace ccExt hExt (pyLastElem (pySplit (pstr "genfiles/") (pstr "genfiles/v.cc/m.cc")))
      ≠ pstr "v.cc/m.h" :=
  ⟨by decide, by decide⟩

/-- C4 (amended): for every output path ending in `.cc` (with a non-empty
directory component, so that `os.makedirs` succeeds), `generate_file`
writes, in order: an include directive whose path is the portion of the
output path after the last occurrence of `genfiles/` with every occurrence
of `.cc` in that portion replaced by `.h` (for paths where `.cc` occurs
only as the final suffix this is exactly the suffix swap); then the
`alignas(16)` array definition; then the size constant. -/
theorem generate_file_cc_layout (out_fname array_name array_type array_contents : PyStr)
    (size : Nat) (s : RunState)
    (hcc : pyEndsWith out_fname ccExt = true) (hd : pyDirname out_fname ≠ []) :
    generate_file out_fname array_name array_type array_contents size s =
      (none, { s with
               dirs := pyDirname out_fname :: s.dirs,
               files := s.files ++ [(out_fname,
                 pstr "#include \"" ++
                   pyReplace ccExt hExt (pyLastElem (pySplit (pstr "genfiles/") out_fname)) ++
                   pstr "\"\n\n" ++
                 pstr "alignas(16) const " ++ array_type ++ pstr " " ++ array_name ++
                   pstr "[] = \x7b" ++ array_contents ++ pstr "\x7d;\n" ++
                 pstr "const unsigned int " ++ array_name ++ pstr "_size = " ++ natStr size ++
                   pstr ";")] }) := by
  simp [generate_file, makedirs, hd, hcc, ccFileText]

/-- C4 witness at the concrete path `genfiles/m.cc`. -/
theorem generate_file_cc_layout_witness :
    generate_file (pstr "genfiles/m.cc") (pstr "g_m_model_data") (pstr "unsigned char")
        (pstr "0x01,") 1 RunState.init =
      (none, { RunState.init with
               dirs := pyDirname (pstr "genfiles/m.cc") :: RunState.init.dirs,
               files := RunState.init.files ++ [(pstr "genfiles/m.cc",
                 pstr "#include \"" ++
                   pyReplace ccExt hExt
                     (pyLastElem (pySplit (pstr "genfiles/") (pstr "genfiles/m.cc"))) ++
                   pstr "\"\n\n" ++
                 pstr "alignas(16) const " ++ pstr "unsigned char" ++ pstr " " ++
                   pstr "g_m_model_data" ++
                   pstr "[] = \x7b" ++ pstr "0x01," ++ pstr "\x7d;\n" ++
                 pstr "const unsigned int " ++ pstr "g_m_model_data" ++ pstr "_size = " ++
                   natStr 1 ++ pstr ";")] }) :=
  generate_file_cc_layout (pstr "genfiles/m.cc") (pstr "g_m_model_data") (pstr "unsigned char")
    (pstr "0x01,") 1 RunState.init (by decide) (by decide)

/-! ### Claims about the name/type deriver -/

/-- C5 counterexample: the claim says `get_array_name` fails with the
`UnsupportedFormat` error, mirroring `generate_array`.  On the unrecognized
path `image.png`, `generate_array` does raise
`ValueError('input file must be .tflite, .bmp or .wav')`, but
`get_array_name` has no raise at all: it falls off the end of its `if`
chain and returns the ordinary value `None` (embedded as `none`), which is
not a raised error (the caller's tuple unpacking of `None` would raise
`TypeError`, not the `UnsupportedFormat` `ValueError`). -/
theorem get_array_name_unrecognized_returns_none :
    get_array_name (pstr "image.png") = none ∧
    (generate_array (pstr "image.png") envDemo RunState.init).1
      = Except.error GenError.unsupportedFormat :=
  ⟨by decide, rfl⟩

/-- C5 (amended): for every input path with an unrecognized extension,
`get_array_name` returns no result (Python `None`) rather than raising; the
`UnsupportedFormat` failure for such a path is raised by the format reader
`generate_array`, which `main` invokes before `get_array_name`. -/
theorem get_array_name_none_reader_raises (p : PyStr) (env : Env) (s : RunState)
    (h1 : pyEndsWith p tfliteExt = false) (h2 : pyEndsWith p bmpExt = false)
    (h3 : pyEndsWith p wavExt = false) :
    get_array_name p = none ∧
    (generate_array p env s).1 = Except.error GenError.unsupportedFormat := by
  constructor
  · simp [get_array_name, h1, h2, h3]
  · simp [generate_array, readInput, h1, h2, h3]

/-- C5 witness at the unrecognized path `image.png`. -/
theorem get_array_name_none_reader_raises_witness :
    get_array_name (pstr "image.png") = none ∧
    (generate_array (pstr "image.png") envDemo RunState.init).1
      = Except.error GenError.unsupportedFormat :=
  get_array_name_none_reader_raises (pstr "image.png") envDemo RunState.init
    (by decide) (by decide) (by decide)

/-! ### Single-file mode scenarios -/

/-- C6: the claimed scenario, evaluated on the code as written.  With
output path `custom.h` (no directory component) and input `sound.wav`
holding the three 16-bit little-endian frames `[-1, 0, 32767]`, the run
does NOT succeed: `os.path.dirname('custom.h')` is the empty string and
CPython's `os.makedirs('', exist_ok=True)` raises `FileNotFoundError`
(its final `mkdir('')` fails and `isdir('')` is false), so the run aborts
after reading the input and writes nothing.  With an output path that does
have a parent directory (`gen/custom.h`) every other part of the claim
holds: exactly one file is written, containing only the extern
declarations for `g_sound_audio_data` typed `short`, and no `.cc` file is
produced. -/
theorem single_file_header_scenario :
    main (pstr "custom.h") [pstr "sound.wav"] envDemo RunState.init
      = (some GenError.fileNotFound,
         { dirs := [], files := [], stdoutLines := [], reads := [pstr "sound.wav"] }) ∧
    main (pstr "gen/custom.h") [pstr "sound.wav"] envDemo RunState.init
      = (none,
         { dirs := [pstr "gen"],
           files := [(pstr "gen/custom.h",
             pstr "extern const short g_sound_audio_data[];\nextern const unsigned int g_sound_audio_data_size;")],
           stdoutLines := [], reads := [pstr "sound.wav"] }) :=
  ⟨by decide, by decide⟩

/-- C7: for every recognized input path, the derived identifier is `g_`
plus the base name (the path split on `.` taking the first segment, then
the final `/`-delimited segment of that) plus `_model_data` / `_image_data`
/ `_audio_data`, and the element type is `unsigned char` for `.tflite` and
`.bmp` and `short` for `.wav`.  The derivation is a pure function of the
path by construction: `get_array_name` is a Lean function of `p` alone, so
the same path always yields the same identifier and type. -/
theorem get_array_name_identifier_and_type (p : PyStr) :
    (pyEndsWith p tfliteExt = true → get_array_name p
      = some ((pstr "g_" ++ pyLastElem (pySplit (pstr "/") (pyFirst (pySplit (pstr ".") p))))
          ++ pstr "_model_data", pstr "unsigned char")) ∧
    (pyEndsWith p bmpExt = true → get_array_name p
      = some ((pstr "g_" ++ pyLastElem (pySplit (pstr "/") (pyFirst (pySplit (pstr ".") p))))
          ++ pstr "_image_data", pstr "unsigned char")) ∧
    (pyEndsWith p wavExt = true → get_array_name p
      = some ((pstr "g_" ++ pyLastElem (pySplit (pstr "/") (pyFirst (pySplit (pstr ".") p))))
          ++ pstr "_audio_data", pstr "short")) := by
  refine ⟨fun h => ?_, fun h => ?_, fun h => ?_⟩
  · simp [get_array_name, h]
  · simp [get_array_name, h, bmp_not_tflite h]
  · simp [get_array_name, h, wav_not_tflite h, wav_not_bmp h]

/-- C7 witness: a `.wav` path with a directory component. -/
theorem get_array_name_identifier_and_type_witness :
    get_array_name (pstr "dir/sound.wav") = some (pstr "g_sound_audio_data", pstr "short") := by
  have h := (get_array_name_identifier_and_type (pstr "dir/sound.wav")).2.2 (by decide)
  exact h.trans (by decide)

/-- C8: in directory mode, inputs are deduplicated by path before
iteration, preserving first-occurrence order: for inputs `[a, b, a]` (with
`a`, `b` distinct recognized paths whose output base paths do not collide),
exactly one definition artifact and one declaration artifact are written
for `a`, and the printed definition-path list has length 2, in order
`[a, b]`. -/
theorem dir_mode_dedup (output a b : PyStr) (env : Env)
    (h1 : pyEndsWith output ccExt = false) (h2 : pyEndsWith output hExt = false)
    (h3 : output ≠ []) (hab : a ≠ b)
    (ha : recognizedInput a = true) (hb : recognizedInput b = true)
    (hbase : (outputBase output a).getD [] ≠ (outputBase output b).getD []) :
    (main output [a, b, a] env RunState.init).1 = none ∧
    (main output [a, b, a] env RunState.init).2.stdoutLines
      = [ccPathOf output a, ccPathOf output b] ∧
    ((main output [a, b, a] env RunState.init).2.files.filter
      (fun f => f.1 == ccPathOf output a)).length = 1 ∧
    ((main output [a, b, a] env RunState.init).2.files.filter
      (fun f => f.1 == hdrPathOf output a)).length = 1 := by
  have hmain : main output [a, b, a] env RunState.init
      = mainLoop output env [a, b] RunState.init := by
    simp [main, h1, h2, pyDedup_pair hab]
  obtain ⟨e1, e2, e3⟩ := mainLoop_spec output env [a, b] h3 RunState.init
    (by intro i hi
        simp only [List.mem_cons, List.not_mem_nil, or_false] at hi
        rcases hi with rfl | rfl
        exacts [ha, hb])
  have hfiles : (main output [a, b, a] env RunState.init).2.files
      = [defArtifact output a env, declArtifact output a,
         defArtifact output b env, declArtifact output b] := by
    rw [hmain]
    simpa [RunState.init] using e3
  have d1 : ¬ (hdrPathOf output a = ccPathOf output a) := by
    intro hh
    unfold hdrPathOf ccPathOf at hh
    exact absurd (List.append_cancel_left hh) (by decide)
  have d1' : ¬ (ccPathOf output a = hdrPathOf output a) := fun hh => d1 hh.symm
  have d2 : ¬ (ccPathOf output b = ccPathOf output a) := by
    intro hh
    unfold ccPathOf at hh
    exact hbase (List.append_cancel_right hh).symm
  have d2' : ¬ (hdrPathOf output b = hdrPathOf output a) := by
    intro hh
    unfold hdrPathOf at hh
    exact hbase (List.append_cancel_right hh).symm
  have hlastcc : ∀ i : PyStr, (ccPathOf output i).getLast? = some 'c' := by
    intro i
    rw [ccPathOf]
    exact (List.getLast?_append_of_ne_nil _ (by decide)).trans (by decide)
  have hlasth : ∀ i : PyStr, (hdrPathOf output i).getLast? = some 'h' := by
    intro i
    rw [hdrPathOf]
    exact (List.getLast?_append_of_ne_nil _ (by decide)).trans (by decide)
  have d3 : ¬ (hdrPathOf output b = ccPathOf output a) := by
    intro hh
    have := (hlasth b).symm.trans (hh ▸ hlastcc a)
    exact absurd this (by decide)
  have d4 : ¬ (ccPathOf output b = hdrPathOf output a) := by
    intro hh
    have := (hlastcc b).symm.trans (hh ▸ hlasth a)
    exact absurd this (by decide)
  refine ⟨by rw [hmain]; exact e1, by rw [hmain]; simpa [RunState.init] using e2, ?_, ?_⟩
  · rw [hfiles]
    simp [defArtifact, declArtifact, List.filter_cons, List.filter_nil, d1, d2, d3]
  · rw [hfiles]
    simp [defArtifact, declArtifact, List.filter_cons, List.filter_nil, d1', d2', d4]

/-- C8 witness at output `out` and inputs `[a.tflite, b.wav, a.tflite]`. -/
theorem dir_mode_dedup_witness :
    (main (pstr "out") [pstr "a.tflite", pstr "b.wav", pstr "a.tflite"]
        envDemo RunState.init).1 = none ∧
    (main (pstr "out") [pstr "a.tflite", pstr "b.wav", pstr "a.tflite"]
        envDemo RunState.init).2.stdoutLines
      = [ccPathOf (pstr "out") (pstr "a.tflite"), ccPathOf (pstr "out") (pstr "b.wav")] ∧
    ((main (pstr "out") [pstr "a.tflite", pstr "b.wav", pstr "a.tflite"]
        envDemo RunState.init).2.files.filter
      (fun f => f.1 == ccPathOf (pstr "out") (pstr "a.tflite"))).length = 1 ∧
    ((main (pstr "out") [pstr "a.tflite", pstr "b.wav", pstr "a.tflite"]
        envDemo RunState.init).2.files.filter
      (fun f => f.1 == hdrPathOf (pstr "out") (pstr "a.tflite"))).length = 1 :=
  dir_mode_dedup (pstr "out") (pstr "a.tflite") (pstr "b.wav") envDemo
    (by decide) (by decide) (by decide) (by decide) (by decide) (by decide) (by decide)

/-- C9: when the output target ends in `.cc` or `.h` and the number of
inputs is not exactly 1, the run fails with the assertion failure
(`InputCountMismatch`) and the run state is returned unchanged: no input
file has been read, no directory created, no artifact written, nothing
printed. -/
theorem single_file_requires_one_input (output : PyStr) (inputs : List PyStr)
    (env : Env) (s : RunState)
    (h : (pyEndsWith output ccExt || pyEndsWith output hExt) = true)
    (hn : inputs.length ≠ 1) :
    main output inputs env s = (some GenError.inputCountMismatch, s) := by
  simp [main, h, hn]

/-- C9 witness: output `foo.cc` with two inputs. -/
theorem single_file_requires_one_input_witness :
    main (pstr "foo.cc") [pstr "a.tflite", pstr "b.tflite"] envDemo RunState.init
      = (some GenError.inputCountMismatch, RunState.init) :=
  single_file_requires_one_input (pstr "foo.cc") [pstr "a.tflite", pstr "b.tflite"]
    envDemo RunState.init (by decide) (by decide)

/-- C10: `generate_file` calls `os.makedirs` before validating the output
extension, so for every output path that ends in neither `.cc` nor `.h`
but has a non-empty (hence, in this model, creatable) parent directory,
the `ValueError` (`InvalidOutputExtension`) is raised only after the
missing parent directory has been created: the error branch leaves the
newly created directory behind (and writes no file). -/
theorem generate_file_mkdirs_precede_validation
    (out_fname array_name array_type array_contents : PyStr) (size : Nat) (s : RunState)
    (h1 : pyEndsWith out_fname ccExt = false) (h2 : pyEndsWith out_fname hExt = false)
    (hd : pyDirname out_fname ≠ []) :
    generate_file out_fname array_name array_type array_contents size s
      = (some GenError.invalidOutputExtension,
         { s with dirs := pyDirname out_fname :: s.dirs }) := by
  simp [generate_file, makedirs, hd, h1, h2]

/-- C10 witness at the concrete path `out/data.txt`. -/
theorem generate_file_mkdirs_precede_validation_witness :
    generate_file (pstr "out/data.txt") (pstr "g_x") (pstr "short") (pstr "1,") 1 RunState.init
      = (some GenError.invalidOutputExtension,
         { RunState.init with dirs := pyDirname (pstr "out/data.txt") :: RunState.init.dirs }) :=
  generate_file_mkdirs_precede_validation (pstr "out/data.txt") (pstr "g_x") (pstr "short")
    (pstr "1,") 1 RunState.init (by decide) (by decide) (by decide)

end GenCC
